import Mathlib

/-!
Shallow embedding of `src/resident_backend/src/routes/index.js`: an Express
router exposing an in-memory resident registry with three operations
(`GET /api/residents`, `POST /api/residents`, `DELETE /api/residents/:id`).

JavaScript numbers are idealised as exact rationals plus the special values
NaN and the two infinities (double rounding/overflow plays no role in the
properties verified here); JSON/JS primitive values appearing in request
bodies are modelled by `JsValue`.
-/

namespace ResidentApp

/-- A JavaScript number: NaN, ±Infinity, or a finite value (idealised ℚ). -/
inductive JsNumber where
  | nan : JsNumber
  | posInf : JsNumber
  | negInf : JsNumber
  | finite : ℚ → JsNumber
deriving DecidableEq, Repr

/-- The test made by Number.isFinite on an already-numeric value. -/
def JsNumber.isFinite : JsNumber → Bool
  | .finite _ => true
  | _ => false

/-- The comparison `x < 0` on a JS number (false for NaN). -/
def JsNumber.ltZero : JsNumber → Bool
  | .finite q => decide (q < 0)
  | .negInf => true
  | _ => false

/-- A JS primitive value, as found in a parsed JSON request body field
(`undefined` standing for an absent field). -/
inductive JsValue where
  | vUndefined : JsValue
  | vNull : JsValue
  | vBool : Bool → JsValue
  | vNum : JsNumber → JsValue
  | vStr : String → JsValue
deriving DecidableEq, Repr

/-- Whether the typeof operator reports the value as a string. -/
def JsValue.isString : JsValue → Bool
  | .vStr _ => true
  | _ => false

/-- JS WhiteSpace / LineTerminator characters recognised by `String.prototype.trim`
and by string-to-number coercion (the ASCII ones plus NBSP and the BOM). -/
def isJsWhitespace (c : Char) : Bool :=
  c = ' ' || c = '\t' || c = '\n' || c = '\r' ||
  c.toNat = 0x0b || c.toNat = 0x0c || c.toNat = 0xa0 || c.toNat = 0xfeff ||
  c.toNat = 0x2028 || c.toNat = 0x2029

/-- Strip leading and trailing JS whitespace from a character list. -/
def jsTrimList (cs : List Char) : List Char :=
  ((cs.dropWhile isJsWhitespace).reverse.dropWhile isJsWhitespace).reverse

/-- The trim method of JS strings. -/
def jsTrim (s : String) : String :=
  String.mk (jsTrimList s.data)

/-- Value of `c` as a digit in the given base, if it is one. -/
def digitValue (base : Nat) (c : Char) : Option Nat :=
  let v : Option Nat :=
    if '0' ≤ c ∧ c ≤ '9' then some (c.toNat - 48)
    else if 'a' ≤ c ∧ c ≤ 'f' then some (c.toNat - 87)
    else if 'A' ≤ c ∧ c ≤ 'F' then some (c.toNat - 55)
    else none
  match v with
  | some d => if d < base then some d else none
  | none => none

/-- Consume a maximal run of base-`base` digits, returning the accumulated
value, the number of digits consumed, and the rest of the input. -/
def takeRadix (base : Nat) (acc n : Nat) : List Char → Nat × Nat × List Char
  | [] => (acc, n, [])
  | c :: cs =>
    match digitValue base c with
    | some d => takeRadix base (acc * base + d) (n + 1) cs
    | none => (acc, n, c :: cs)

/-- Parse an unsigned StrDecimalLiteral (`12`, `12.`, `.5`, `3.25e-2`, …);
`none` when the input is not entirely such a literal. -/
def parseDecimal (cs : List Char) : Option ℚ :=
  let ir := takeRadix 10 0 0 cs
  let fr : Nat × Nat × List Char :=
    match ir.2.2 with
    | '.' :: rest => takeRadix 10 0 0 rest
    | _ => (0, 0, ir.2.2)
  let mantissa : ℚ := (ir.1 : ℚ) + (fr.1 : ℚ) / (10 : ℚ) ^ fr.2.1
  if ir.2.1 + fr.2.1 = 0 then none
  else
    match fr.2.2 with
    | [] => some mantissa
    | e :: rest =>
      if e = 'e' ∨ e = 'E' then
        let sr : Bool × List Char :=
          match rest with
          | '+' :: t => (false, t)
          | '-' :: t => (true, t)
          | t => (false, t)
        let er := takeRadix 10 0 0 sr.2
        if er.2.1 = 0 ∨ er.2.2 ≠ [] then none
        else some (if sr.1 then mantissa / (10 : ℚ) ^ er.1 else mantissa * (10 : ℚ) ^ er.1)
      else none

/-- Parse a whole non-decimal integer literal body (after `0x`/`0o`/`0b`). -/
def parseRadixLit (base : Nat) (cs : List Char) : JsNumber :=
  let r := takeRadix base 0 0 cs
  if r.2.1 = 0 ∨ r.2.2 ≠ [] then .nan else .finite (r.1 : ℚ)

/-- Parse an optionally signed decimal literal or `Infinity`. -/
def parseSigned (cs : List Char) : JsNumber :=
  let sb : Bool × List Char :=
    match cs with
    | '+' :: t => (false, t)
    | '-' :: t => (true, t)
    | t => (false, t)
  if sb.2 = ['I', 'n', 'f', 'i', 'n', 'i', 't', 'y'] then
    if sb.1 then .negInf else .posInf
  else
    match parseDecimal sb.2 with
    | some q => .finite (if sb.1 then -q else q)
    | none => .nan

/-- ECMAScript StringToNumber: the result of `Number(s)` for a string `s`.
Whitespace-only strings coerce to `0`; otherwise the trimmed content must be
a complete numeric literal (signed decimal, `Infinity`, or an unsigned
`0x`/`0o`/`0b` literal), else NaN. -/
def strToNumber (s : String) : JsNumber :=
  match jsTrimList s.data with
  | [] => .finite 0
  | '0' :: c :: rest =>
    if c = 'x' ∨ c = 'X' then parseRadixLit 16 rest
    else if c = 'o' ∨ c = 'O' then parseRadixLit 8 rest
    else if c = 'b' ∨ c = 'B' then parseRadixLit 2 rest
    else parseSigned ('0' :: c :: rest)
  | cs => parseSigned cs

/-- ECMAScript ToNumber on a primitive: the result of `Number(v)`. -/
def toNumber : JsValue → JsNumber
  | .vUndefined => .nan
  | .vNull => .finite 0
  | .vBool b => .finite (if b then 1 else 0)
  | .vNum n => n
  | .vStr s => strToNumber s

/-- `Math.trunc` on a finite JS number: truncation toward zero
(on ℚ, `num` t-divided by `den` rounds toward zero). -/
def ratTrunc (q : ℚ) : ℤ :=
  q.num.tdiv (q.den : ℤ)

/-- A stored resident record `{id, name, age}`. -/
structure Resident where
  id : Nat
  name : String
  age : ℤ
deriving DecidableEq, Repr

/-- The module-level mutable state: the `residents` array and the
`nextResidentId` counter. -/
structure State where
  residents : List Resident
  nextResidentId : Nat
deriving DecidableEq, Repr

/-- The state at process start: empty collection, counter at 1. -/
def initState : State :=
  { residents := [], nextResidentId := 1 }

/-- A JSON response body produced by the router. -/
inductive Body where
  | resident : Resident → Body
  | residentList : List Resident → Body
  | error : String → String → Body
  | empty : Body
deriving DecidableEq, Repr

/-- An HTTP response: status code and body. -/
structure Response where
  status : Nat
  body : Body
deriving DecidableEq, Repr

def nameRequiredMsg : String := "Field \"name\" is required"

def ageInvalidMsg : String := "Field \"age\" must be a non-negative number"

def notFoundMsg : String := "Resident not found"

/-- The GET handler for /api/residents: responds 200 with the stored array. -/
def listResidents (st : State) : Response × State :=
  (⟨200, .residentList st.residents⟩, st)

/-- The POST handler for /api/residents given the destructured name and age
fields. Mirrors the source handler: the name check fails when typeof name is
not string or the trimmed name is empty; then parsedAge is the coercion
Number(age), and the age check fails when parsedAge is not finite or is
negative; otherwise a resident with id nextResidentId (post-incremented),
the trimmed name, and Math.trunc of parsedAge is pushed and returned with
status 201. -/
def create (st : State) (name age : JsValue) : Response × State :=
  match name with
  | .vStr s =>
    if (jsTrim s).length = 0 then
      (⟨400, .error "error" nameRequiredMsg⟩, st)
    else
      match toNumber age with
      | .finite q =>
        if q < 0 then
          (⟨400, .error "error" ageInvalidMsg⟩, st)
        else
          let r : Resident := ⟨st.nextResidentId, jsTrim s, ratTrunc q⟩
          (⟨201, .resident r⟩,
           { residents := st.residents ++ [r],
             nextResidentId := st.nextResidentId + 1 })
      | _ =>
        -- `!Number.isFinite(parsedAge)` for NaN and the infinities
        (⟨400, .error "error" ageInvalidMsg⟩, st)
  | _ =>
    -- `typeof name !== 'string'`
    (⟨400, .error "error" nameRequiredMsg⟩, st)

/-- A parsed JSON request body for `POST /api/residents` (an absent field
destructures to `undefined`). -/
structure ReqBody where
  name : JsValue
  age : JsValue
deriving DecidableEq, Repr

/-- The destructuring of req.body (or an empty object when the body is
falsy): a missing body yields two undefined fields. -/
def bodyFields : Option ReqBody → JsValue × JsValue
  | some b => (b.name, b.age)
  | none => (.vUndefined, .vUndefined)

/-- The full `POST /api/residents` handler on an optional request body. -/
def handlePost (st : State) (b : Option ReqBody) : Response × State :=
  create st (bodyFields b).1 (bodyFields b).2

/-- The predicate `(r) => r.id === id` with `id` the already-finite parsed
path parameter. -/
def matchesId (q : ℚ) (r : Resident) : Bool :=
  decide ((r.id : ℚ) = q)

/-- The findIndex method of JS arrays, with the -1 result modelled as none. -/
def findIndex (p : Resident → Bool) : List Resident → Option Nat
  | [] => none
  | r :: rs => if p r then some 0 else (findIndex p rs).map (· + 1)

/-- The DELETE handler for /api/residents/:id: the path parameter is
coerced with Number; 404 when the result is not finite or findIndex misses;
otherwise splice removes the found index and a 204 with empty body is
returned. -/
def deleteResident (st : State) (idParam : String) : Response × State :=
  match strToNumber idParam with
  | .finite q =>
    match findIndex (matchesId q) st.residents with
    | some idx =>
      (⟨204, .empty⟩, { st with residents := st.residents.eraseIdx idx })
    | none =>
      (⟨404, .error "error" notFoundMsg⟩, st)
  | _ =>
    (⟨404, .error "error" notFoundMsg⟩, st)

/-- A request routed to the resident registry. -/
inductive Request where
  | post : Option ReqBody → Request
  | del : String → Request
  | list : Request
deriving DecidableEq, Repr

/-- Dispatch one request against the shared state. -/
def step (st : State) : Request → Response × State
  | .post b => handlePost st b
  | .del s => deleteResident st s
  | .list => listResidents st

/-- Run a sequence of requests, collecting the responses. -/
def run : State → List Request → List Response × State
  | st, [] => ([], st)
  | st, req :: rs =>
    let p := step st req
    let q := run p.2 rs
    (p.1 :: q.1, q.2)

/-- The ids of the residents returned by 201 responses, in response order. -/
def createdIds (resps : List Response) : List Nat :=
  resps.filterMap fun resp =>
    match resp.body with
    | .resident r => some r.id
    | _ => none

/-- The name validation of the POST handler, as a predicate:
`typeof name === 'string' && name.trim().length !== 0`. -/
def nameAccepted : JsValue → Bool
  | .vStr s => decide ((jsTrim s).length ≠ 0)
  | _ => false

/-- The age validation of the POST handler, as a predicate:
`Number(age)` is finite and `≥ 0`. -/
def ageAccepted (age : JsValue) : Bool :=
  match toNumber age with
  | .finite q => decide (0 ≤ q)
  | _ => false

/-- The registry invariant: stored ids are pairwise distinct and below the
counter. -/
def goodState (st : State) : Prop :=
  (st.residents.map Resident.id).Nodup ∧ ∀ r ∈ st.residents, r.id < st.nextResidentId

/-- The resident built by a successful create in state `st`. -/
def freshResident (st : State) (s : String) (q : ℚ) : Resident :=
  ⟨st.nextResidentId, jsTrim s, ratTrunc q⟩

lemma create_cases (st : State) (name age : JsValue) :
    (nameAccepted name = false ∧
      create st name age = (⟨400, .error "error" nameRequiredMsg⟩, st)) ∨
    (nameAccepted name = true ∧ ageAccepted age = false ∧
      create st name age = (⟨400, .error "error" ageInvalidMsg⟩, st)) ∨
    (∃ s q, name = .vStr s ∧ (jsTrim s).length ≠ 0 ∧
      toNumber age = .finite q ∧ 0 ≤ q ∧
      create st name age =
        (⟨201, .resident (freshResident st s q)⟩,
         ⟨st.residents ++ [freshResident st s q], st.nextResidentId + 1⟩)) := by
  cases name with
  | vStr s =>
    by_cases hs : (jsTrim s).length = 0
    · exact Or.inl ⟨by simp [nameAccepted, hs], by simp [create, hs]⟩
    · cases hM : toNumber age with
      | finite q =>
        by_cases hq : q < 0
        · refine Or.inr (Or.inl ⟨by simp [nameAccepted, hs], ?_, ?_⟩)
          · simp [ageAccepted, hM, not_le.mpr hq]
          · simp [create, hs, hM, hq]
        · refine Or.inr (Or.inr ⟨s, q, rfl, hs, rfl, not_lt.mp hq, ?_⟩)
          simp [create, hs, hM, hq, freshResident]
      | nan =>
        refine Or.inr (Or.inl ⟨by simp [nameAccepted, hs], ?_, ?_⟩)
        · simp [ageAccepted, hM]
        · simp [create, hs, hM]
      | posInf =>
        refine Or.inr (Or.inl ⟨by simp [nameAccepted, hs], ?_, ?_⟩)
        · simp [ageAccepted, hM]
        · simp [create, hs, hM]
      | negInf =>
        refine Or.inr (Or.inl ⟨by simp [nameAccepted, hs], ?_, ?_⟩)
        · simp [ageAccepted, hM]
        · simp [create, hs, hM]
  | vUndefined => exact Or.inl ⟨rfl, rfl⟩
  | vNull => exact Or.inl ⟨rfl, rfl⟩
  | vBool b => exact Or.inl ⟨rfl, rfl⟩
  | vNum n => exact Or.inl ⟨rfl, rfl⟩

lemma delete_cases (st : State) (s : String) :
    (deleteResident st s = (⟨404, .error "error" notFoundMsg⟩, st)) ∨
    (∃ q idx, strToNumber s = .finite q ∧
      findIndex (matchesId q) st.residents = some idx ∧
      deleteResident st s =
        (⟨204, .empty⟩, ⟨st.residents.eraseIdx idx, st.nextResidentId⟩)) := by
  cases hN : strToNumber s with
  | finite q =>
    cases hF : findIndex (matchesId q) st.residents with
    | some idx =>
      exact Or.inr ⟨q, idx, rfl, hF, by simp [deleteResident, hN, hF]⟩
    | none =>
      exact Or.inl (by simp [deleteResident, hN, hF])
  | nan => exact Or.inl (by simp [deleteResident, hN])
  | posInf => exact Or.inl (by simp [deleteResident, hN])
  | negInf => exact Or.inl (by simp [deleteResident, hN])

lemma findIndex_eq_none_iff (p : Resident → Bool) (l : List Resident) :
    findIndex p l = none ↔ ∀ r ∈ l, p r = false := by
  induction l with
  | nil => simp [findIndex]
  | cons r t ih =>
    by_cases h : p r <;> simp [findIndex, h, ih]

lemma matchesId_id_eq {q : ℚ} {r r' : Resident}
    (h : matchesId q r = true) (h' : matchesId q r' = true) : r.id = r'.id := by
  simp only [matchesId, decide_eq_true_eq] at h h'
  exact_mod_cast h.trans h'.symm

lemma findIndex_eraseIdx_none (q : ℚ) (l : List Resident) (i : Nat)
    (hnd : (l.map Resident.id).Nodup)
    (hf : findIndex (matchesId q) l = some i) :
    findIndex (matchesId q) (l.eraseIdx i) = none := by
  induction l generalizing i with
  | nil => simp [findIndex] at hf
  | cons r t ih =>
    simp only [List.map_cons, List.nodup_cons] at hnd
    by_cases hr : matchesId q r
    · simp only [findIndex, hr, if_pos] at hf
      obtain rfl : (0 : Nat) = i := Option.some.inj hf
      rw [List.eraseIdx_cons_zero]
      rw [findIndex_eq_none_iff]
      intro x hx
      by_contra hpx
      have hid : x.id = r.id :=
        matchesId_id_eq (by simpa using hpx) hr
      exact hnd.1 (hid ▸ List.mem_map_of_mem Resident.id hx)
    · have hstep : findIndex (matchesId q) (r :: t) =
          (findIndex (matchesId q) t).map (· + 1) := by
        simp [findIndex, hr]
      rw [hstep, Option.map_eq_some'] at hf
      obtain ⟨j, hj, rfl⟩ := hf
      rw [List.eraseIdx_cons_succ]
      have hstep2 : findIndex (matchesId q) (r :: t.eraseIdx j) =
          (findIndex (matchesId q) (t.eraseIdx j)).map (· + 1) := by
        simp [findIndex, hr]
      rw [hstep2, ih j hnd.2 hj]
      rfl

lemma run_cons (st : State) (req : Request) (rs : List Request) :
    run st (req :: rs) =
      ((step st req).1 :: (run (step st req).2 rs).1, (run (step st req).2 rs).2) := rfl

/-- Every dispatched request either is a successful create — its response
body carries a resident whose id is the current counter, the counter is
bumped, the record appended — or it leaves the counter alone, returns no
resident body, and shrinks the collection at most by deletion. -/
lemma step_char (st : State) (req : Request) :
    (∃ r : Resident, (step st req).1.body = .resident r ∧
      r.id = st.nextResidentId ∧
      (step st req).2.nextResidentId = st.nextResidentId + 1 ∧
      (step st req).2.residents = st.residents ++ [r]) ∨
    ((step st req).2.nextResidentId = st.nextResidentId ∧
      (∀ r : Resident, (step st req).1.body ≠ .resident r) ∧
      List.Sublist (step st req).2.residents st.residents) := by
  cases req with
  | list =>
    refine Or.inr ⟨rfl, ?_, List.Sublist.refl _⟩
    intro r hr
    cases hr
  | del s =>
    have hstep : step st (Request.del s) = deleteResident st s := rfl
    rcases delete_cases st s with h | ⟨q, idx, hN, hF, h⟩
    · rw [hstep, h]
      refine Or.inr ⟨rfl, ?_, List.Sublist.refl _⟩
      intro r hr
      cases hr
    · rw [hstep, h]
      refine Or.inr ⟨rfl, ?_, List.eraseIdx_sublist _ _⟩
      intro r hr
      cases hr
  | post b =>
    have hstep : step st (Request.post b) =
        create st (bodyFields b).1 (bodyFields b).2 := rfl
    rcases create_cases st (bodyFields b).1 (bodyFields b).2 with
      ⟨_, h⟩ | ⟨_, _, h⟩ | ⟨s, q, _, _, _, _, h⟩
    · rw [hstep, h]
      refine Or.inr ⟨rfl, ?_, List.Sublist.refl _⟩
      intro r hr
      cases hr
    · rw [hstep, h]
      refine Or.inr ⟨rfl, ?_, List.Sublist.refl _⟩
      intro r hr
      cases hr
    · rw [hstep, h]
      exact Or.inl ⟨freshResident st s q, rfl, rfl, rfl, rfl⟩

/-- The ids `c, c+1, …, c+k-1`. -/
def idRange (c : Nat) : Nat → List Nat
  | 0 => []
  | k + 1 => c :: idRange (c + 1) k

lemma idRange_length (c k : Nat) : (idRange c k).length = k := by
  induction k generalizing c with
  | zero => rfl
  | succ k ih => simp [idRange, ih]

lemma createdIds_cons_resident (resp : Response) (r : Resident) (l : List Response)
    (h : resp.body = .resident r) :
    createdIds (resp :: l) = r.id :: createdIds l := by
  simp [createdIds, List.filterMap_cons, h]

lemma createdIds_cons_other (resp : Response) (l : List Response)
    (h : ∀ r : Resident, resp.body ≠ .resident r) :
    createdIds (resp :: l) = createdIds l := by
  cases hb : resp.body with
  | resident r => exact absurd hb (h r)
  | residentList rs => simp [createdIds, List.filterMap_cons, hb]
  | error a b => simp [createdIds, List.filterMap_cons, hb]
  | empty => simp [createdIds, List.filterMap_cons, hb]

/-- Running any request sequence from a state with counter `c` produces
exactly the created-id list `c, c+1, …` and leaves the counter at `c`
plus the number of successful creates. -/
lemma run_createdIds (reqs : List Request) : ∀ st : State,
    createdIds (run st reqs).1 =
      idRange st.nextResidentId (createdIds (run st reqs).1).length ∧
    (run st reqs).2.nextResidentId =
      st.nextResidentId + (createdIds (run st reqs).1).length := by
  induction reqs with
  | nil => intro st; simp [run, createdIds, idRange]
  | cons req rs ih =>
    intro st
    rw [run_cons]
    obtain ⟨ih1, ih2⟩ := ih (step st req).2
    rcases step_char st req with ⟨r, hbody, hid, hnext, _⟩ | ⟨hnext, hbody, _⟩
    · rw [hnext] at ih1 ih2
      constructor
      · rw [createdIds_cons_resident _ r _ hbody, List.length_cons, idRange, hid,
          ih1, idRange_length]
      · rw [createdIds_cons_resident _ r _ hbody, List.length_cons, ih2]
        omega
    · rw [hnext] at ih1 ih2
      constructor
      · rw [createdIds_cons_other _ _ hbody, ih1, idRange_length]
      · rw [createdIds_cons_other _ _ hbody, ih2]

lemma step_preserves_good (st : State) (req : Request) (h : goodState st) :
    goodState (step st req).2 := by
  rcases step_char st req with ⟨r, _, hid, hnext, hres⟩ | ⟨hnext, _, hsub⟩
  · constructor
    · rw [hres, List.map_append]
      refine List.nodup_append.mpr ⟨h.1, List.nodup_singleton _, ?_⟩
      intro a ha hb
      simp only [List.map_cons, List.map_nil, List.mem_singleton] at hb
      obtain ⟨x, hx, rfl⟩ := List.mem_map.mp ha
      have hlt := h.2 x hx
      rw [hb, hid] at hlt
      exact lt_irrefl _ hlt
    · intro x hx
      rw [hres] at hx
      rw [hnext]
      rcases List.mem_append.mp hx with hx | hx
      · exact Nat.lt_succ_of_lt (h.2 x hx)
      · rw [List.mem_singleton.mp hx, hid]
        exact Nat.lt_succ_self _
  · constructor
    · exact h.1.sublist (hsub.map Resident.id)
    · intro x hx
      rw [hnext]
      exact h.2 x (hsub.subset hx)

lemma run_preserves_good (reqs : List Request) : ∀ st : State,
    goodState st → goodState (run st reqs).2 := by
  induction reqs with
  | nil => intro st h; exact h
  | cons req rs ih =>
    intro st h
    rw [run_cons]
    exact ih _ (step_preserves_good st req h)

lemma goodState_init : goodState initState :=
  ⟨List.nodup_nil, by intro r hr; cases hr⟩

/-- C1: a create call whose inputs pass validation (string name with
non-empty trim, age coercing to a finite number ≥ 0) assigns as id the
current value of the sequential counter (which starts at 1 in the initial
state), stores the trimmed name and the age truncated toward zero, appends
the record at the end of the collection, and returns HTTP 201 whose body is
exactly that resident. -/
theorem create_valid_spec (st : State) (s : String) (age : JsValue) (q : ℚ)
    (hs : (jsTrim s).length ≠ 0)
    (hq : toNumber age = .finite q) (hq0 : 0 ≤ q) :
    initState.nextResidentId = 1 ∧
    create st (.vStr s) age =
      (⟨201, .resident ⟨st.nextResidentId, jsTrim s, ratTrunc q⟩⟩,
       ⟨st.residents ++ [⟨st.nextResidentId, jsTrim s, ratTrunc q⟩],
        st.nextResidentId + 1⟩) := by
  refine ⟨rfl, ?_⟩
  simp [create, hs, hq, not_lt.mpr hq0]

/-- Witness for C1: the spec's example, `{"name":"Jane Doe","age":35.7}`
against the fresh registry yields 201 with `{id: 1, name: "Jane Doe", age: 35}`. -/
theorem create_valid_spec_witness :
    create initState (.vStr "Jane Doe") (.vNum (.finite (357 / 10))) =
      (⟨201, .resident ⟨1, "Jane Doe", 35⟩⟩, ⟨[⟨1, "Jane Doe", 35⟩], 2⟩) := by
  have h := (create_valid_spec initState "Jane Doe" (.vNum (.finite (357 / 10)))
    (357 / 10) (by decide) rfl (by norm_num)).2
  rw [h]
  with_unfolding_all rfl

/-- C2: delete responds 404 with the not-found error body and unchanged
state when the path parameter does not parse to a finite number or no
stored resident matches it; otherwise it removes exactly the first
matching record and responds 204 with an empty body; given id-uniqueness,
a second delete of the same id is then a not-found on the shrunken state. -/
theorem delete_spec (st : State) (s : String) :
    ((∀ q : ℚ, strToNumber s = .finite q →
        findIndex (matchesId q) st.residents = none) →
      deleteResident st s = (⟨404, .error "error" notFoundMsg⟩, st)) ∧
    (∀ (q : ℚ) (idx : Nat), strToNumber s = .finite q →
      findIndex (matchesId q) st.residents = some idx →
      deleteResident st s =
        (⟨204, .empty⟩, ⟨st.residents.eraseIdx idx, st.nextResidentId⟩)) ∧
    ((st.residents.map Resident.id).Nodup →
      (deleteResident st s).1.status = 204 →
      deleteResident (deleteResident st s).2 s =
        (⟨404, .error "error" notFoundMsg⟩, (deleteResident st s).2)) := by
  refine ⟨?_, ?_, ?_⟩
  · intro hnone
    cases hN : strToNumber s with
    | finite q => simp [deleteResident, hN, hnone q hN]
    | nan => simp [deleteResident, hN]
    | posInf => simp [deleteResident, hN]
    | negInf => simp [deleteResident, hN]
  · intro q idx hN hF
    simp [deleteResident, hN, hF]
  · intro hnd h204
    rcases delete_cases st s with h | ⟨q, idx, hN, hF, h⟩
    · rw [h] at h204
      simp at h204
    · rw [h]
      have hnone := findIndex_eraseIdx_none q st.residents idx hnd hF
      simp [deleteResident, hN, hnone]

/-- Witness for C2: deleting id 1 from a registry holding exactly resident
1 empties the collection and leaves the counter alone. -/
theorem delete_spec_witness :
    deleteResident (State.mk [⟨1, "Jane Doe", 35⟩] 2) "1" =
      (⟨204, .empty⟩, ⟨[], 2⟩) := by
  have h := (delete_spec (State.mk [⟨1, "Jane Doe", 35⟩] 2) "1").2.1
    1 0 (by with_unfolding_all decide) (by with_unfolding_all decide)
  rw [h]
  rfl

/-- C3: over any request sequence from the initial state, successful
creates receive ids 1, 2, 3, … in order (the n-th successful create of the
process gets id n, so ids are strictly increasing and never reused even
after deletions), and a delete never changes the id counter. -/
theorem ids_sequential (reqs : List Request) :
    createdIds (run initState reqs).1 =
      idRange 1 (createdIds (run initState reqs).1).length ∧
    ∀ (st : State) (s : String),
      (step st (Request.del s)).2.nextResidentId = st.nextResidentId := by
  constructor
  · exact (run_createdIds reqs initState).1
  · intro st s
    have hstep : step st (Request.del s) = deleteResident st s := rfl
    rcases delete_cases st s with h | ⟨q, idx, hN, hF, h⟩
    · rw [hstep, h]
    · rw [hstep, h]

/-- C4: if the name field is not a string or trims to the empty string,
create responds 400 with the name-required error and unchanged state, for
every value of the age field. -/
theorem create_name_invalid (st : State) (name age : JsValue)
    (h : nameAccepted name = false) :
    create st name age = (⟨400, .error "error" nameRequiredMsg⟩, st) := by
  rcases create_cases st name age with ⟨_, hc⟩ | ⟨hn, _, _⟩ | ⟨s, q, rfl, hs, _, _, _⟩
  · exact hc
  · rw [h] at hn
    cases hn
  · simp [nameAccepted] at h
    exact absurd h hs

/-- Witness for C4: a `null` name is rejected with the name-required error
even though the age is valid. -/
theorem create_name_invalid_witness :
    create initState .vNull (.vNum (.finite 5)) =
      (⟨400, .error "error" nameRequiredMsg⟩, initState) :=
  create_name_invalid initState .vNull (.vNum (.finite 5)) rfl

/-- C5: once the name passes validation, create responds 400 with the age
error exactly when `Number(age)` is not a finite value ≥ 0; otherwise the
age check passes and the create returns 201. -/
theorem create_age_validation (st : State) (s : String) (age : JsValue)
    (hs : (jsTrim s).length ≠ 0) :
    (ageAccepted age = false →
      create st (.vStr s) age = (⟨400, .error "error" ageInvalidMsg⟩, st)) ∧
    (ageAccepted age = true →
      (create st (.vStr s) age).1.status = 201) := by
  constructor
  · intro h
    rcases create_cases st (.vStr s) age with
      ⟨hn, _⟩ | ⟨_, _, hc⟩ | ⟨s', q, _, _, hM, hq0, _⟩
    · simp [nameAccepted, hs] at hn
    · exact hc
    · rw [ageAccepted, hM] at h
      simp [hq0] at h
  · intro h
    rcases create_cases st (.vStr s) age with
      ⟨hn, _⟩ | ⟨_, hageF, _⟩ | ⟨s', q, _, _, _, _, hc⟩
    · simp [nameAccepted, hs] at hn
    · rw [h] at hageF
      cases hageF
    · rw [hc]

/-- Witness for C5: age -1 is rejected with the age error message. -/
theorem create_age_validation_witness :
    create initState (.vStr "Jane Doe") (.vNum (.finite (-1))) =
      (⟨400, .error "error" ageInvalidMsg⟩, initState) :=
  (create_age_validation initState "Jane Doe" (.vNum (.finite (-1)))
    (by decide)).1 (by with_unfolding_all decide)

/-- C6: failed operations are atomic with respect to stored state — a 400
from create and a 404 from delete both leave the collection and the id
counter exactly as they were. -/
theorem failed_ops_atomic (st : State) (name age : JsValue) (s : String) :
    ((create st name age).1.status = 400 → (create st name age).2 = st) ∧
    ((deleteResident st s).1.status = 404 → (deleteResident st s).2 = st) := by
  constructor
  · intro h
    rcases create_cases st name age with ⟨_, hc⟩ | ⟨_, _, hc⟩ | ⟨s', q, _, _, _, _, hc⟩
    · rw [hc]
    · rw [hc]
    · rw [hc] at h
      simp at h
  · intro h
    rcases delete_cases st s with hc | ⟨q, idx, _, _, hc⟩
    · rw [hc]
    · rw [hc] at h
      simp at h

/-- Witness for C6: an invalid create and an unparseable delete both leave
the fresh registry untouched. -/
theorem failed_ops_atomic_witness :
    (create initState .vUndefined .vUndefined).2 = initState ∧
    (deleteResident initState "abc").2 = initState :=
  ⟨(failed_ops_atomic initState .vUndefined .vUndefined "abc").1 rfl,
   (failed_ops_atomic initState .vUndefined .vUndefined "abc").2 (by with_unfolding_all decide)⟩

/-- C7: list returns HTTP 200 with the stored records in insertion order
and never mutates the state; the empty registry lists as an empty array
(not an error); creates append at the end and deletes keep the relative
order of the remaining records. -/
theorem list_spec (st : State) :
    listResidents st = (⟨200, .residentList st.residents⟩, st) ∧
    listResidents initState = (⟨200, .residentList []⟩, initState) ∧
    (∀ name age : JsValue, (create st name age).1.status = 201 →
      ∃ r : Resident, (create st name age).2.residents = st.residents ++ [r]) ∧
    (∀ s : String,
      List.Sublist (deleteResident st s).2.residents st.residents) := by
  refine ⟨rfl, rfl, ?_, ?_⟩
  · intro name age h
    rcases create_cases st name age with ⟨_, hc⟩ | ⟨_, _, hc⟩ | ⟨s, q, _, _, _, _, hc⟩
    · rw [hc] at h
      simp at h
    · rw [hc] at h
      simp at h
    · exact ⟨freshResident st s q, by rw [hc]⟩
  · intro s
    rcases delete_cases st s with hc | ⟨q, idx, _, _, hc⟩
    · rw [hc]
    · rw [hc]
      exact List.eraseIdx_sublist _ _

/-- Witness for C7: the fresh registry lists as an empty array, and a
successful create appends exactly one record. -/
theorem list_spec_witness :
    listResidents initState = (⟨200, .residentList []⟩, initState) ∧
    ∃ r : Resident,
      (create initState (.vStr "a") .vNull).2.residents =
        initState.residents ++ [r] :=
  ⟨(list_spec initState).2.1,
   (list_spec initState).2.2.1 (.vStr "a") .vNull (by with_unfolding_all decide)⟩

/-- C8: after any sequence of create/delete/list requests from the initial
state, the collection contains no two residents with the same id. -/
theorem ids_unique (reqs : List Request) :
    ((run initState reqs).2.residents.map Resident.id).Nodup :=
  (run_preserves_good reqs initState goodState_init).1

/-- C9: with a valid name, acceptance of the age field is decided by the
coerced numeric value rather than the value's type: `null`, the empty
string and whitespace-only strings are accepted and stored as age 0, and
booleans are accepted. -/
theorem create_age_coercion (st : State) (s : String)
    (hs : (jsTrim s).length ≠ 0) :
    (∀ age : JsValue,
      ((create st (.vStr s) age).1.status = 201 ↔ ageAccepted age = true)) ∧
    (create st (.vStr s) .vNull).1 =
      ⟨201, .resident ⟨st.nextResidentId, jsTrim s, 0⟩⟩ ∧
    (create st (.vStr s) (.vStr "")).1 =
      ⟨201, .resident ⟨st.nextResidentId, jsTrim s, 0⟩⟩ ∧
    (create st (.vStr s) (.vStr " ")).1 =
      ⟨201, .resident ⟨st.nextResidentId, jsTrim s, 0⟩⟩ ∧
    (create st (.vStr s) (.vBool true)).1.status = 201 ∧
    (create st (.vStr s) (.vBool false)).1.status = 201 := by
  refine ⟨?_, ?_, ?_, ?_, ?_, ?_⟩
  · intro age
    rcases create_cases st (.vStr s) age with
      ⟨hn, _⟩ | ⟨_, hageF, hc⟩ | ⟨s', q, _, _, hM, hq0, hc⟩
    · simp [nameAccepted, hs] at hn
    · rw [hc, hageF]
      simp
    · rw [hc, ageAccepted, hM]
      simp [hq0]
  · have h0 : toNumber JsValue.vNull = .finite 0 := rfl
    simp [create, hs, h0, show ¬ ((0 : ℚ) < 0) from by norm_num]
    rfl
  · have h0 : toNumber (JsValue.vStr "") = .finite 0 := rfl
    simp [create, hs, h0, show ¬ ((0 : ℚ) < 0) from by norm_num]
    rfl
  · have h0 : toNumber (JsValue.vStr " ") = .finite 0 := by decide
    simp [create, hs, h0, show ¬ ((0 : ℚ) < 0) from by norm_num]
    rfl
  · have h1 : toNumber (JsValue.vBool true) = .finite 1 := rfl
    simp [create, hs, h1, show ¬ ((1 : ℚ) < 0) from by norm_num]
  · have h1 : toNumber (JsValue.vBool false) = .finite 0 := rfl
    simp [create, hs, h1, show ¬ ((0 : ℚ) < 0) from by norm_num]

/-- Witness for C9: a `null` age is accepted and stored as 0. -/
theorem create_age_coercion_witness :
    (create initState (.vStr "a") .vNull).1 =
      ⟨201, .resident ⟨1, "a", 0⟩⟩ := by
  have h := (create_age_coercion initState "a" (by decide)).2.1
  rw [h]
  with_unfolding_all rfl

/-- C10: the POST handler is total in the request body — a missing body or
a body without a name field falls through to the name validation and
yields the 400 name-required response with the state unchanged. -/
theorem post_total_in_body (st : State) (b : Option ReqBody)
    (h : (bodyFields b).1 = .vUndefined) :
    handlePost st b = (⟨400, .error "error" nameRequiredMsg⟩, st) := by
  unfold handlePost
  rw [h]
  rfl

/-- Witness for C10: an absent request body yields the name-required 400. -/
theorem post_total_in_body_witness :
    handlePost initState none = (⟨400, .error "error" nameRequiredMsg⟩, initState) :=
  post_total_in_body initState none rfl

end ResidentApp
